import Mathlib

/- Verification development for the circular-3d backend's scan-processing
   pipeline.  The definitions below are a shallow embedding of
   src/backend/photogrammetry.py and src/backend/tasks.py: Python numbers are
   modelled as rationals (exact arithmetic), 32-bit floats at the byte level by
   their IEEE-754 bit patterns, file contents as byte lists or line lists, and
   exceptions as Except / Option results (with Option.none reserved for
   non-termination of the PLY header loop). -/

namespace Circular3D

/-- A 3-D point with rational coordinates (models a Python float triple). -/
abbrev Pt := ℚ × ℚ × ℚ

/-- Characters of a string, stripped of leading and trailing whitespace;
models Python str.strip(). -/
def pyStrip (s : String) : String :=
  String.mk (((s.toList.dropWhile Char.isWhitespace).reverse.dropWhile
    Char.isWhitespace).reverse)

/-- Model of Python str.startswith(pre). -/
def pyStartsWith (s pre : String) : Bool :=
  pre.toList.isPrefixOf s.toList

/-- Accumulator form of whitespace-run splitting: `acc` holds the reversed
characters of the word currently being read. -/
def splitWsAux : List Char → List Char → List (List Char)
  | [], acc => if acc = [] then [] else [acc.reverse]
  | c :: t, acc =>
    if c.isWhitespace then
      if acc = [] then splitWsAux t [] else acc.reverse :: splitWsAux t []
    else splitWsAux t (c :: acc)

/-- Whitespace-run splitting of a character list; models Python
str.split() with no separator argument (empty chunks are never produced). -/
def splitWs (cs : List Char) : List (List Char) :=
  splitWsAux cs []

/-- Model of Python str.split() (no argument): split on whitespace runs. -/
def pySplit (s : String) : List String :=
  (splitWs s.toList).map String.mk

/-- Integer value of a digit list (most significant first). -/
def digitsVal (ds : List Char) : Int :=
  ds.foldl (fun a c => a * 10 + (Int.ofNat c.toNat - 48)) 0

/-- Model of Python int(s) on strings: optional surrounding whitespace,
optional sign, then decimal digits; None models a ValueError. -/
def pyInt? (s : String) : Option Int :=
  match (pyStrip s).toList with
  | [] => none
  | c :: t =>
    if c = Char.ofNat 45 then
      if t ≠ [] ∧ t.all Char.isDigit then some (-(digitsVal t)) else none
    else if c = Char.ofNat 43 then
      if t ≠ [] ∧ t.all Char.isDigit then some (digitsVal t) else none
    else if (c :: t).all Char.isDigit then some (digitsVal (c :: t)) else none

/-- Optional sign prefix: returns (negative?, remaining characters). -/
def readSign : List Char → Bool × List Char
  | [] => (false, [])
  | c :: t =>
    if c = Char.ofNat 45 then (true, t)
    else if c = Char.ofNat 43 then (false, t)
    else (false, c :: t)

/-- Model of Python float(s) restricted to finite decimal notation with an
optional exponent (the inf/nan spellings are outside this rational model);
None models a ValueError. -/
def pyFloat? (s : String) : Option ℚ :=
  let (neg, t1) := readSign (pyStrip s).toList
  let ip := t1.takeWhile Char.isDigit
  let t2 := t1.dropWhile Char.isDigit
  let (fp, t3) :=
    match t2 with
    | c :: r =>
      if c = Char.ofNat 46 then (r.takeWhile Char.isDigit, r.dropWhile Char.isDigit)
      else ([], t2)
    | [] => ([], t2)
  if ip = [] ∧ fp = [] then none
  else
    let mant : ℚ := (digitsVal ip : ℚ) + (digitsVal fp : ℚ) / (10 : ℚ) ^ fp.length
    let signed : ℚ := if neg then -mant else mant
    match t3 with
    | [] => some signed
    | c :: r =>
      if c = Char.ofNat 101 ∨ c = Char.ofNat 69 then
        let (eneg, r1) := readSign r
        let ed := r1.takeWhile Char.isDigit
        let r2 := r1.dropWhile Char.isDigit
        if ed ≠ [] ∧ r2 = [] then
          let e := (digitsVal ed).toNat
          some (if eneg then signed / (10 : ℚ) ^ e else signed * (10 : ℚ) ^ e)
        else none
      else none

/-- Model of file.readline() on a byte stream: the first line, including its
terminating newline byte when present, and the remaining bytes. -/
def readLine : List Nat → List Nat × List Nat
  | [] => ([], [])
  | b :: t =>
    if b = 10 then ([10], t)
    else
      let lr := readLine t
      (b :: lr.1, lr.2)

/-- Accumulator form of line splitting: the whole byte stream cut into the
successive readline() results (each including its terminating newline when
present); `acc` holds the reversed bytes of the line being read. -/
def byteLinesAux : List Nat → List Nat → List (List Nat)
  | [], acc => if acc = [] then [] else [acc.reverse]
  | b :: t, acc =>
    if b = 10 then (acc.reverse ++ [10]) :: byteLinesAux t []
    else byteLinesAux t (b :: acc)

/-- The successive lines readline() yields on a byte stream. -/
def byteLines (bs : List Nat) : List (List Nat) :=
  byteLinesAux bs []

/-- Model of bytes.decode('ascii'): succeeds only when every byte is below
128; None models a UnicodeDecodeError. -/
def decodeAscii (bs : List Nat) : Option String :=
  if bs.all (fun b => b < 128) then some (String.mk (bs.map Char.ofNat)) else none

/-- ASCII bytes of a string (used to build concrete test files). -/
def asciiBytes (s : String) : List Nat :=
  s.toList.map Char.toNat

/- ------------------------------------------------------------------
   PLY point-cloud reader: PhotogrammetryProcessor._read_points_from_ply
   ------------------------------------------------------------------ -/

/-- Little-endian 32-bit word from four bytes (struct.unpack byte order). -/
def leWord (b0 b1 b2 b3 : Nat) : Nat :=
  b0 + 256 * b1 + 65536 * b2 + 16777216 * b3

/-- Rational value of an IEEE-754 binary32 bit pattern.  For exponent field
255 (infinities and NaNs, which have no rational value) the function returns
0; theorems about float values restrict to finite patterns. -/
def f32Val (w : Nat) : ℚ :=
  let s : Nat := w / 2 ^ 31 % 2
  let e : Nat := w / 2 ^ 23 % 256
  let m : Nat := w % 2 ^ 23
  let sgn : ℚ := if s = 1 then -1 else 1
  if e = 0 then sgn * (m : ℚ) / (2 : ℚ) ^ (149 : Nat)
  else if e = 255 then 0
  else sgn * (((2 ^ 23 + m : Nat) : ℚ) * (2 : ℚ) ^ e) / (2 : ℚ) ^ (150 : Nat)

/-- struct.unpack('<fff', bs[0:12]): the three floats packed in the first
12 bytes of a byte list. -/
def unpackTriple (bs : List Nat) : Pt :=
  (f32Val (leWord (bs.getD 0 0) (bs.getD 1 0) (bs.getD 2 0) (bs.getD 3 0)),
   f32Val (leWord (bs.getD 4 0) (bs.getD 5 0) (bs.getD 6 0) (bs.getD 7 0)),
   f32Val (leWord (bs.getD 8 0) (bs.getD 9 0) (bs.getD 10 0) (bs.getD 11 0)))

/-- Binary body loop of _read_points_from_ply: for each of `n` declared
vertices, read 12 bytes; when all 12 are available unpack a float triple and
then skip 3 colour bytes; when fewer than 12 bytes remain nothing is appended
and the short read consumes the tail.  Mirrors the source exactly: a short
read is NOT an error. -/
def readBinaryVertices : Nat → List Nat → List Pt
  | 0, _ => []
  | n + 1, bs =>
    if 12 ≤ bs.length then unpackTriple bs :: readBinaryVertices n (bs.drop 15)
    else readBinaryVertices n (bs.drop 12)

/-- ASCII body loop of _read_points_from_ply: for each of `n` declared
vertices read one line; blank lines (including the empty reads after EOF) and
lines with fewer than 3 fields are skipped; a float() failure is an error. -/
def readAsciiVertices : Nat → List Nat → Except Unit (List Pt)
  | 0, _ => .ok []
  | n + 1, bs =>
    let lr := readLine bs
    match decodeAscii lr.1 with
    | none => .error ()
    | some s =>
      let line := pyStrip s
      if line = "" then readAsciiVertices n lr.2
      else
        let vals := pySplit line
        if 3 ≤ vals.length then
          match pyFloat? (vals.getD 0 ""), pyFloat? (vals.getD 1 ""),
              pyFloat? (vals.getD 2 "") with
          | some x, some y, some z =>
            (readAsciiVertices n lr.2).map (fun ps => (x, y, z) :: ps)
          | _, _, _ => .error ()
        else readAsciiVertices n lr.2

/-- Header state threaded through the header loop: format-binary flag,
declared vertex count, property names. -/
structure PlyHeader where
  formatBinary : Bool
  vertexCount : Int
  props : List String
deriving DecidableEq

/-- Header loop of _read_points_from_ply over the stream's line list,
reading stripped ASCII lines until `end_header`.  Returns the header and the
unread lines (whose joined bytes are the body).  `none` models the source's
non-termination: at end of file readline() yields the empty string forever,
so a file without an `end_header` line loops forever.  `Except.error` models
the exceptions: a non-ASCII byte, int() failure on the vertex count, or a
`property` line with fewer than three tokens. -/
def parseHeaderLines : List (List Nat) → PlyHeader →
    Option (Except Unit (PlyHeader × List (List Nat)))
  | [], _ => none
  | lb :: rest, st =>
    match decodeAscii lb with
    | none => some (.error ())
    | some s =>
      let line := pyStrip s
      if pyStartsWith line "format binary" then
        parseHeaderLines rest { st with formatBinary := true }
      else if pyStartsWith line "element vertex" then
        match pyInt? ((pySplit line).getLastD "") with
        | none => some (.error ())
        | some k => parseHeaderLines rest { st with vertexCount := k }
      else if pyStartsWith line "property" then
        match (pySplit line).get? 2 with
        | none => some (.error ())
        | some p => parseHeaderLines rest { st with props := st.props ++ [p] }
      else if line = "end_header" then some (.ok (st, rest))
      else parseHeaderLines rest st

/-- PhotogrammetryProcessor._read_points_from_ply over the raw bytes of the
file.  `none` models the header loop's non-termination, `Except.error` an
exception escaping the function (caught by the caller). -/
def read_points_from_ply (bs : List Nat) : Option (Except Unit (List Pt)) :=
  match parseHeaderLines (byteLines bs) ⟨false, 0, []⟩ with
  | none => none
  | some (.error e) => some (.error e)
  | some (.ok (hdr, rest)) =>
    if hdr.formatBinary then
      some (.ok (readBinaryVertices hdr.vertexCount.toNat rest.flatten))
    else
      some (readAsciiVertices hdr.vertexCount.toNat rest.flatten)

/- ------------------------------------------------------------------
   COLMAP points3D.txt parsing (inside _create_mesh_from_colmap_model)
   ------------------------------------------------------------------ -/

/-- The points3D.txt loop of _create_mesh_from_colmap_model over the file's
lines: skip lines starting with the comment marker or blank after stripping;
whitespace-split the rest; on a line with at least 4 fields take float(parts
1, 2, 3) as X/Y/Z (fields 0 and 4+ ignored); a float() failure is an
exception aborting the whole parse. -/
def colmapParse : List String → Except Unit (List Pt)
  | [] => .ok []
  | l :: rest =>
    if pyStartsWith l "#" ∨ pyStrip l = "" then colmapParse rest
    else
      let parts := pySplit (pyStrip l)
      if 4 ≤ parts.length then
        match pyFloat? (parts.getD 1 ""), pyFloat? (parts.getD 2 ""),
            pyFloat? (parts.getD 3 "") with
        | some x, some y, some z =>
          (colmapParse rest).map (fun ps => (x, y, z) :: ps)
        | _, _, _ => .error ()
      else colmapParse rest

/-- The X/Y/Z triple one line of a points3D.txt file contributes, if any:
none for comment lines, blank lines, short lines, and unparsable lines. -/
def lineXYZ (l : String) : Option Pt :=
  if pyStartsWith l "#" ∨ pyStrip l = "" then none
  else
    let parts := pySplit (pyStrip l)
    if 4 ≤ parts.length then
      match pyFloat? (parts.getD 1 ""), pyFloat? (parts.getD 2 ""),
          pyFloat? (parts.getD 3 "") with
      | some x, some y, some z => some (x, y, z)
      | _, _, _ => none
    else none

/- ------------------------------------------------------------------
   Mesh synthesis: _create_fallback_mesh and _create_convex_hull_obj
   ------------------------------------------------------------------ -/

/-- A mesh as written to the OBJ file: vertex positions in file order and
faces as lists of 1-based indices into the vertex block. -/
structure Mesh where
  vertices : List Pt
  faces : List (List Nat)
deriving DecidableEq

/-- Caller-supplied dimensions dict: each key optional, matching
dims.get('length', 50) and friends. -/
structure Dims where
  length : Option ℚ
  width : Option ℚ
  height : Option ℚ
deriving DecidableEq

/-- Scan metadata as consumed by the pipeline: the optional `dimensions`
entry (metadata.get('dimensions', {})). -/
structure Metadata where
  dimensions : Option Dims
deriving DecidableEq

/-- PhotogrammetryProcessor._create_fallback_mesh: an axis-aligned box from
the declared dimensions (centimetres, divided by 100 into metres; per-field
defaults 50, 50, 100 when absent), 8 vertices and 6 quadrilateral faces with
the source's exact vertex order ([-hl, -hh, -hw] puts length on x, height on
y, width on z). -/
def create_fallback_mesh (md : Metadata) : Mesh :=
  let dims := md.dimensions.getD ⟨none, none, none⟩
  let length := (dims.length.getD 50) / 100
  let width := (dims.width.getD 50) / 100
  let height := (dims.height.getD 100) / 100
  let hl := length / 2
  let hw := width / 2
  let hh := height / 2
  { vertices :=
      [(-hl, -hh, -hw), (hl, -hh, -hw), (hl, hh, -hw), (-hl, hh, -hw),
       (-hl, -hh, hw), (hl, -hh, hw), (hl, hh, hw), (-hl, hh, hw)],
    faces :=
      [[1, 2, 3, 4], [5, 8, 7, 6],
       [1, 5, 6, 2], [3, 7, 8, 4],
       [1, 4, 8, 5], [2, 6, 7, 3]] }

/-- Centroid of a point list (points.mean(axis=0)). -/
def centroid (pts : List Pt) : Pt :=
  let n : ℚ := pts.length
  ((pts.map (fun p => p.1)).sum / n,
   (pts.map (fun p => p.2.1)).sum / n,
   (pts.map (fun p => p.2.2)).sum / n)

/-- Largest absolute coordinate of a point list (np.abs(pts).max()). -/
def maxAbsCoord (pts : List Pt) : ℚ :=
  pts.foldr (fun p a => max (max |p.1| (max |p.2.1| |p.2.2|)) a) 0

/-- Normalisation step of _create_convex_hull_obj: centre on the centroid,
then when the maximum absolute coordinate is positive rescale it to 2. -/
def normalize_points (pts : List Pt) : List Pt :=
  let c := centroid pts
  let centered := pts.map (fun p => (p.1 - c.1, p.2.1 - c.2.1, p.2.2 - c.2.2))
  let scale := maxAbsCoord centered
  if 0 < scale then
    centered.map (fun p => (p.1 / scale * 2, p.2.1 / scale * 2, p.2.2 / scale * 2))
  else centered

/-- Convex-hull data as returned by scipy.spatial.ConvexHull: indices of the
hull's vertices into the input point list, and the simplex index lists. -/
structure HullData where
  vertices : List Nat
  simplices : List (List Nat)
deriving DecidableEq

/-- The dict comprehension building vertex_map in _create_convex_hull_obj:
original point index to 1-based position in hull.vertices; for a duplicated
original index the last enumeration entry wins, matching dict insertion. -/
def vertexMap (verts : List Nat) (idx : Nat) : Option Nat :=
  ((verts.enum.filter (fun p => p.2 = idx)).getLast?).map (fun p => p.1 + 1)

/-- PhotogrammetryProcessor._create_convex_hull_obj given the hull scipy
computed on the normalised points: emit the hull's vertices (as normalised
positions) and, for each simplex, the list of mapped 1-based indices, kept
only when exactly 3 survive the membership filter. -/
def create_convex_hull_obj (pts : List Pt) (h : HullData) : Mesh :=
  let norm := normalize_points pts
  { vertices := h.vertices.map (fun i => norm.getD i (0, 0, 0)),
    faces := h.simplices.filterMap (fun s =>
      let fi := s.filterMap (vertexMap h.vertices)
      if fi.length = 3 then some fi else none) }

/- ------------------------------------------------------------------
   _create_mesh_from_colmap_model, _export_models, process_scan
   ------------------------------------------------------------------ -/

/-- The exceptions the try block of _create_mesh_from_colmap_model can raise,
each caught by its except clause, which falls back to the box mesh. -/
inductive MeshErr
  | decodeFailed
  | insufficientPoints
  | hullFailed
  | noPointsFile
deriving DecidableEq

/-- Which path produced the mesh.obj file: the convex hull of decoded points,
or the dimension-based fallback box. -/
inductive MeshOut
  | hull (m : Mesh)
  | box (m : Mesh)
deriving DecidableEq

/-- True when the mesh came from the fallback box path. -/
def MeshOut.isBoxMesh : MeshOut → Bool
  | .hull _ => false
  | .box _ => true

/-- The ConvexHull call on the normalised points, with scipy abstracted as an
oracle: `none` models a raised scipy error (e.g. degenerate geometry),
propagating out of _create_convex_hull_obj. -/
def hullAttempt (pts : List Pt) (hull : List Pt → Option HullData) :
    Except MeshErr Mesh :=
  match hull (normalize_points pts) with
  | some h => .ok (create_convex_hull_obj pts h)
  | none => .error .hullFailed

/-- The points3D.txt branch of _create_mesh_from_colmap_model's try block:
output/model/points3D.txt first, else the leftover sparse/0/points3D.txt,
else FileNotFoundError; then the <4 points guard, then the hull. -/
def meshFromTxtCore (modelTxt sparseTxt : Option (List String))
    (hull : List Pt → Option HullData) : Option (Except MeshErr Mesh) :=
  match (match modelTxt with | some l => some l | none => sparseTxt) with
  | none => some (.error .noPointsFile)
  | some lines =>
    match colmapParse lines with
    | .error _ => some (.error .decodeFailed)
    | .ok pts =>
      if pts.length < 4 then some (.error .insufficientPoints)
      else some (hullAttempt pts hull)

/-- The whole try block of _create_mesh_from_colmap_model: when
output/points.ply exists read it (a decode exception aborts the try block; a
point set of at least 4 goes to the hull and returns), otherwise — and when
the PLY yielded fewer than 4 points — continue with the text model.  `none`
models the PLY header loop hanging. -/
def meshFromModelCore (ply : Option (List Nat))
    (modelTxt sparseTxt : Option (List String))
    (hull : List Pt → Option HullData) : Option (Except MeshErr Mesh) :=
  match ply with
  | some bs =>
    match read_points_from_ply bs with
    | none => none
    | some (.error _) => some (.error .decodeFailed)
    | some (.ok pts) =>
      if 4 ≤ pts.length then some (hullAttempt pts hull)
      else meshFromTxtCore modelTxt sparseTxt hull
  | none => meshFromTxtCore modelTxt sparseTxt hull

/-- PhotogrammetryProcessor._create_mesh_from_colmap_model: the try block
above with its except clause, which logs and writes the fallback box mesh. -/
def create_mesh_from_colmap_model (ply : Option (List Nat))
    (modelTxt sparseTxt : Option (List String))
    (hull : List Pt → Option HullData) (md : Metadata) : Option MeshOut :=
  match meshFromModelCore ply modelTxt sparseTxt hull with
  | none => none
  | some (.ok m) => some (.hull m)
  | some (.error _) => some (.box (create_fallback_mesh md))

/-- File-system and subprocess environment of _export_models: whether a
sparse model directory was found, whether each model_converter invocation
exits successfully, and the artifact files the mesh step would read. -/
structure ExportEnv where
  hasModelDir : Bool
  plyConvertOk : Bool
  txtConvertOk : Bool
  plyFile : Option (List Nat)
  modelTxt : Option (List String)
  sparseTxt : Option (List String)

/-- Result of _export_models: whether points_ply was recorded in the models
dict, and which mesh was written. -/
structure ExportResult where
  pointsPlyExported : Bool
  mesh : MeshOut
deriving DecidableEq

/-- PhotogrammetryProcessor._export_models: no model directory means an
immediate fallback box; a failure of either model_converter invocation is
caught by the except clause, which writes the fallback box directly (the
points_ply entry survives only if the first invocation succeeded); when both
succeed the mesh comes from _create_mesh_from_colmap_model. -/
def export_models (env : ExportEnv) (hull : List Pt → Option HullData)
    (md : Metadata) : Option ExportResult :=
  if ¬env.hasModelDir then some ⟨false, .box (create_fallback_mesh md)⟩
  else if ¬env.plyConvertOk then some ⟨false, .box (create_fallback_mesh md)⟩
  else if ¬env.txtConvertOk then some ⟨true, .box (create_fallback_mesh md)⟩
  else
    (create_mesh_from_colmap_model env.plyFile env.modelTxt env.sparseTxt
      hull md).map (fun m => ⟨true, m⟩)

/-- Terminal result of PhotogrammetryProcessor.process_scan:
success carries the stats' fallback_model flag (true exactly when the COLMAP
pipeline raised and the except branch built the box) and the mesh written;
failed carries only the error branch. -/
inductive ScanResult
  | success (fallbackModel : Bool) (mesh : MeshOut)
  | failed
deriving DecidableEq

/-- PhotogrammetryProcessor.process_scan: photo extraction (abstracted to
whether it raises) feeds the inner try, whose except clause turns ANY COLMAP
pipeline failure into the fallback box mesh with stats fallback_model=True
and still returns status success; only an exception outside the inner try
(e.g. extraction) produces status failed. -/
def process_scan (extractOk pipelineOk : Bool) (env : ExportEnv)
    (hull : List Pt → Option HullData) (md : Metadata) : Option ScanResult :=
  if ¬extractOk then some .failed
  else if ¬pipelineOk then
    some (.success true (.box (create_fallback_mesh md)))
  else
    (export_models env hull md).map (fun r => .success false r.mesh)

/-- The terminal scan status written by tasks.process_photogrammetry:
"completed" when process_scan returned status success (fallback or not),
"failed" otherwise. -/
def task_terminal_status : ScanResult → String
  | .success _ _ => "completed"
  | .failed => "failed"

/- ------------------------------------------------------------------
   tasks.py: update_scan_status and process_photogrammetry
   ------------------------------------------------------------------ -/

/-- JSON values stored in the status and metadata records. -/
inductive JVal
  | str (s : String)
  | int (n : Int)
  | obj (fields : List (String × JVal))

/-- A JSON object as an ordered key/value list (Python dict insertion
order). -/
abbrev Record := List (String × JVal)

/-- Python dict assignment d[k] = v: replace the entry in place when the key
is present, append otherwise. -/
def dictSet (m : Record) (k : String) (v : JVal) : Record :=
  if m.any (fun p => p.1 == k) then
    m.map (fun p => if p.1 == k then (k, v) else p)
  else m ++ [(k, v)]

/-- Python dict.update(new): assign every entry of `new` in order. -/
def dictUpdate (m new : Record) : Record :=
  new.foldl (fun acc p => dictSet acc p.1 p.2) m

/-- Lookup of a key in a record. -/
def lookupRec (m : Record) (k : String) : Option JVal :=
  (m.find? (fun p => p.1 == k)).map (fun p => p.2)

/-- State of the per-scan uploads/{scan_id} directory: absent, or present
with the optional status.json and metadata.json contents. -/
inductive DirState
  | absent
  | present (status : Option Record) (metadata : Option Record)

/-- The dict literal update_scan_status merges into the current status:
{"status": status, "last_updated": now, **data}. -/
def statusArg (status now : String) (data : Record) : Record :=
  dictUpdate (dictSet (dictSet [] "status" (.str status))
    "last_updated" (.str now)) data

/-- tasks.update_scan_status: when the per-scan uploads directory does not
exist neither file is touched and no error is raised; otherwise the status
record (or an empty dict when the file is missing) is merged with the new
fields and written back, and an existing metadata file gets its status and
processing_data fields replaced. -/
def update_scan_status (d : DirState) (status now : String) (data : Record) :
    DirState :=
  match d with
  | .absent => .absent
  | .present st md =>
    .present (some (dictUpdate (st.getD []) (statusArg status now data)))
      (md.map (fun m =>
        dictSet (dictSet m "status" (.str status)) "processing_data" (.obj data)))

/-- Outcome of the body of tasks.process_photogrammetry: process_scan
returned status success, returned status failed, or raised. -/
inductive TaskOutcome
  | success (models stats : JVal) (photoCount : Int)
  | procFailed (err : String)
  | taskError (err : String)

/-- The (status, data) arguments of the successive update_scan_status calls
made by one run of tasks.process_photogrammetry, in program order. -/
def task_updates : TaskOutcome → List (String × Record)
  | .success models stats photoCount =>
    [("processing", [("stage", .str "initializing"), ("progress", .int 0)]),
     ("processing", [("stage", .str "extracting_features"), ("progress", .int 10)]),
     ("completed", [("models", models), ("stats", stats),
       ("photo_count", .int photoCount)])]
  | .procFailed err =>
    [("processing", [("stage", .str "initializing"), ("progress", .int 0)]),
     ("processing", [("stage", .str "extracting_features"), ("progress", .int 10)]),
     ("failed", [("error", .str err)])]
  | .taskError err =>
    [("processing", [("stage", .str "initializing"), ("progress", .int 0)]),
     ("processing", [("stage", .str "extracting_features"), ("progress", .int 10)]),
     ("failed", [("error", .str err)])]

/-- Directory states after each successive update of a run, given the
timestamps each call observes. -/
def runStatusStates (d : DirState) (nows : List String) :
    List (String × Record) → List DirState
  | [] => []
  | (s, data) :: rest =>
    let d' := update_scan_status d s (nows.headD "") data
    d' :: runStatusStates d' nows.tail rest

/-- The integer progress field of the persisted status record, when the
directory, the file, and the field all exist. -/
def progressOf (d : DirState) : Option Int :=
  match d with
  | .absent => none
  | .present st _ =>
    match st with
    | none => none
    | some r =>
      match lookupRec r "progress" with
      | some (.int n) => some n
      | _ => none

/-- Progress values persisted by the successive status updates of one
processing run, in order of persistence. -/
def progress_trace (d : DirState) (o : TaskOutcome) (nows : List String) :
    List Int :=
  (runStatusStates d nows (task_updates o)).filterMap progressOf

/- ==================================================================
   Theorems
   ================================================================== -/

/-- C10: for every scan id whose per-scan uploads directory does not exist,
update_scan_status is a silent no-op: the directory state is returned
unchanged (no status file is written, no metadata file is touched) and, the
function being total, no error is raised. -/
theorem update_scan_status_unknown_scan_noop (status now : String)
    (data : Record) :
    update_scan_status .absent status now data = .absent := rfl

/-- C1 (amended): if the COLMAP pipeline fails and the metadata contains no
dimensions value, the job does NOT terminate failed: process_scan catches the
failure, _create_fallback_mesh silently defaults the missing dimensions to
50 x 50 x 100 cm, the run returns status success with fallback_model true,
and the task records the terminal scan status "completed" (the
fallback-success state), never "failed"/ReconstructionFailed. -/
theorem pipeline_failure_without_dimensions_still_falls_back
    (env : ExportEnv) (hull : List Pt → Option HullData) :
    process_scan true false env hull ⟨none⟩ =
      some (.success true (.box (create_fallback_mesh ⟨none⟩))) ∧
    (create_fallback_mesh ⟨none⟩).vertices.length = 8 ∧
    task_terminal_status (.success true (.box (create_fallback_mesh ⟨none⟩))) =
      "completed" := by
  exact ⟨rfl, rfl, rfl⟩

/-- C1 counterexample: at the concrete input (pipeline forced to fail,
metadata without dimensions) the job reaches the fallback-success terminal
status "completed" with fallback_model true — not the "failed" state the
claim requires. -/
theorem pipeline_failure_without_dimensions_not_failed :
    process_scan true false ⟨false, false, false, none, none, none⟩
      (fun _ => none) ⟨none⟩ =
      some (.success true (.box (create_fallback_mesh ⟨none⟩))) ∧
    task_terminal_status (.success true (.box (create_fallback_mesh ⟨none⟩))) ≠
      "failed" := by
  exact ⟨rfl, by decide⟩

/-- C9 (amended): when the dedicated exporter invocation fails, the driver
resorts directly to the dimension-based fallback mesh WITHOUT reading any
leftover structured text model; the leftover sparse/0/points3D.txt is only
consulted when both exporter invocations succeed. -/
theorem export_failure_skips_leftover_model (env : ExportEnv)
    (hull : List Pt → Option HullData) (md : Metadata)
    (hdir : env.hasModelDir = true) :
    (env.plyConvertOk = false →
      export_models env hull md = some ⟨false, .box (create_fallback_mesh md)⟩) ∧
    (env.plyConvertOk = true → env.txtConvertOk = false →
      export_models env hull md = some ⟨true, .box (create_fallback_mesh md)⟩) := by
  constructor
  · intro h1
    simp [export_models, hdir, h1]
  · intro h1 h2
    simp [export_models, hdir, h1, h2]

/-- C9 witness: the amended theorem applied at a concrete environment whose
first exporter invocation fails. -/
theorem export_failure_skips_leftover_model_witness :
    export_models ⟨true, false, true, none, none, none⟩ (fun _ => none) ⟨none⟩ =
      some ⟨false, .box (create_fallback_mesh ⟨none⟩)⟩ :=
  (export_failure_skips_leftover_model ⟨true, false, true, none, none, none⟩
    (fun _ => none) ⟨none⟩ rfl).1 rfl

/-- C9 counterexample: with the exporter invocation failing while a readable
leftover structured text model with 4 good points sits in the reconstruction
stage's directory (and a hull oracle that succeeds on it), _export_models
writes the fallback box — even though reading the leftover model directly
would have produced a hull mesh.  The driver therefore does NOT attempt the
leftover text model before resorting to the fallback. -/
theorem export_failure_ignores_readable_leftover_model :
    (export_models
        ⟨true, false, true, none, none,
          some ["1 0 0 0 255 0 0 0.5 1 1", "2 2 0 0 255 0 0 0.5 1 1",
            "3 0 2 0 255 0 0 0.5 1 1", "4 0 0 2 255 0 0 0.5 1 1"]⟩
        (fun _ => some ⟨[0, 1, 2, 3], [[0, 1, 2], [0, 1, 3], [0, 2, 3], [1, 2, 3]]⟩)
        ⟨none⟩).map (fun r => r.mesh.isBoxMesh) = some true ∧
    (create_mesh_from_colmap_model none none
        (some ["1 0 0 0 255 0 0 0.5 1 1", "2 2 0 0 255 0 0 0.5 1 1",
          "3 0 2 0 255 0 0 0.5 1 1", "4 0 0 2 255 0 0 0.5 1 1"])
        (fun _ => some ⟨[0, 1, 2, 3], [[0, 1, 2], [0, 1, 3], [0, 2, 3], [1, 2, 3]]⟩)
        ⟨none⟩).map MeshOut.isBoxMesh = some false := by
  exact ⟨rfl, rfl⟩

/-- C2: for positive dimensions {length, width, height} the fallback path
always succeeds (the function is total) and produces exactly 8 vertices and
6 faces of 4 indices each, an axis-aligned box centred at the origin whose
extents are the dimensions divided by 100: each coordinate ranges
symmetrically over ±(dim/200) and both extremes are attained (the source
maps length to x, height to y and width to z). -/
theorem fallback_mesh_is_dimension_box (l w h : ℚ)
    (hl : 0 < l) (hw : 0 < w) (hh : 0 < h) :
    (create_fallback_mesh ⟨some ⟨some l, some w, some h⟩⟩).vertices.length = 8 ∧
    (create_fallback_mesh ⟨some ⟨some l, some w, some h⟩⟩).faces.length = 6 ∧
    (∀ f ∈ (create_fallback_mesh ⟨some ⟨some l, some w, some h⟩⟩).faces,
      f.length = 4) ∧
    (∀ v ∈ (create_fallback_mesh ⟨some ⟨some l, some w, some h⟩⟩).vertices,
      -(l / 200) ≤ v.1 ∧ v.1 ≤ l / 200 ∧
      -(h / 200) ≤ v.2.1 ∧ v.2.1 ≤ h / 200 ∧
      -(w / 200) ≤ v.2.2 ∧ v.2.2 ≤ w / 200) ∧
    (l / 200, h / 200, w / 200) ∈
      (create_fallback_mesh ⟨some ⟨some l, some w, some h⟩⟩).vertices ∧
    (-(l / 200), -(h / 200), -(w / 200)) ∈
      (create_fallback_mesh ⟨some ⟨some l, some w, some h⟩⟩).vertices := by
  have hm : create_fallback_mesh ⟨some ⟨some l, some w, some h⟩⟩ =
      { vertices :=
          [(-(l / 100 / 2), -(h / 100 / 2), -(w / 100 / 2)),
           (l / 100 / 2, -(h / 100 / 2), -(w / 100 / 2)),
           (l / 100 / 2, h / 100 / 2, -(w / 100 / 2)),
           (-(l / 100 / 2), h / 100 / 2, -(w / 100 / 2)),
           (-(l / 100 / 2), -(h / 100 / 2), w / 100 / 2),
           (l / 100 / 2, -(h / 100 / 2), w / 100 / 2),
           (l / 100 / 2, h / 100 / 2, w / 100 / 2),
           (-(l / 100 / 2), h / 100 / 2, w / 100 / 2)],
        faces :=
          [[1, 2, 3, 4], [5, 8, 7, 6],
           [1, 5, 6, 2], [3, 7, 8, 4],
           [1, 4, 8, 5], [2, 6, 7, 3]] } := rfl
  rw [hm]
  refine ⟨rfl, rfl, by intro f hf; fin_cases hf <;> rfl, ?_, ?_, ?_⟩
  · intro v hv
    simp only [List.mem_cons, List.not_mem_nil, or_false] at hv
    rcases hv with rfl | rfl | rfl | rfl | rfl | rfl | rfl | rfl <;>
      exact ⟨by linarith, by linarith, by linarith, by linarith, by linarith,
        by linarith⟩
  · have h7 : ((l / 200 : ℚ), (h / 200 : ℚ), (w / 200 : ℚ)) =
        ((l / 100 / 2 : ℚ), (h / 100 / 2 : ℚ), (w / 100 / 2 : ℚ)) := by
      simp only [Prod.mk.injEq]
      exact ⟨by ring, by ring, by ring⟩
    rw [h7]
    simp
  · have h1 : ((-(l / 200) : ℚ), (-(h / 200) : ℚ), (-(w / 200) : ℚ)) =
        ((-(l / 100 / 2) : ℚ), (-(h / 100 / 2) : ℚ), (-(w / 100 / 2) : ℚ)) := by
      simp only [Prod.mk.injEq]
      exact ⟨by ring, by ring, by ring⟩
    rw [h1]
    simp

/-- C8: whenever colmapParse succeeds, its result is exactly the per-line
extraction that skips comment lines beginning with the marker character and
blank lines, whitespace-splits each data line, and takes X/Y/Z from columns
2-4 (fields at positions 1, 2, 3), ignoring columns 0-1 and 5+. -/
theorem colmapParse_takes_columns_two_to_four (lines : List String)
    (ps : List Pt) (h : colmapParse lines = .ok ps) :
    ps = lines.filterMap lineXYZ := by
  induction lines generalizing ps with
  | nil =>
    simp only [colmapParse] at h
    injection h with h
    simp [← h]
  | cons l rest ih =>
    rw [List.filterMap_cons]
    simp only [colmapParse] at h
    split at h
    · rename_i hc
      rw [show lineXYZ l = none from by simp only [lineXYZ]; rw [if_pos hc]]
      exact ih ps h
    · rename_i hc
      split at h
      · rename_i hp
        split at h
        · rename_i x y z hx hy hz
          have hline : lineXYZ l = some (x, y, z) := by
            simp only [lineXYZ]
            rw [if_neg hc, if_pos hp, hx, hy, hz]
          rw [hline]
          cases hr : colmapParse rest with
          | error e => rw [hr] at h; simp [Except.map] at h
          | ok ps' =>
            rw [hr] at h
            simp only [Except.map, Except.ok.injEq] at h
            rw [← h, ← ih ps' hr]
        · simp at h
      · rename_i hp
        rw [show lineXYZ l = none from by
          simp only [lineXYZ]; rw [if_neg hc, if_neg hp]]
        exact ih ps h

/-- C8 witness: the column-extraction theorem applied to a concrete file
with a comment line, a data line carrying id/colour/error/track fields, and
a short line. -/
theorem colmapParse_takes_columns_two_to_four_witness :
    ([((3 : ℚ) / 2, (2 : ℚ), (13 : ℚ) / 4)] : List Pt) =
      (["# 3D point list", "7 1.5 2 3.25 255 0 0 0.1 5 5", "bad"].filterMap
        lineXYZ) :=
  colmapParse_takes_columns_two_to_four
    ["# 3D point list", "7 1.5 2 3.25 255 0 0 0.1 5 5", "bad"]
    [((3 : ℚ) / 2, (2 : ℚ), (13 : ℚ) / 4)] (by with_unfolding_all rfl)

/-- C3: whenever decoding yields fewer than 4 points — from the PLY file (if
present) and from the text model — the try block of
_create_mesh_from_colmap_model raises the insufficient-points error rather
than building a hull, and the caller's except clause writes the
dimension-based fallback box mesh. -/
theorem insufficient_points_always_fall_back (ply : Option (List Nat))
    (lines : List String) (pts : List Pt) (hull : List Pt → Option HullData)
    (md : Metadata)
    (hply : ∀ bs, ply = some bs →
      ∃ q, read_points_from_ply bs = some (.ok q) ∧ q.length < 4)
    (hparse : colmapParse lines = .ok pts) (hlen : pts.length < 4) :
    meshFromTxtCore (some lines) none hull =
      some (.error .insufficientPoints) ∧
    create_mesh_from_colmap_model ply (some lines) none hull md =
      some (.box (create_fallback_mesh md)) := by
  have htxt : meshFromTxtCore (some lines) none hull =
      some (.error .insufficientPoints) := by
    simp only [meshFromTxtCore, hparse, if_pos hlen]
  have hcore : meshFromModelCore ply (some lines) none hull =
      some (.error .insufficientPoints) := by
    cases ply with
    | none => simpa [meshFromModelCore] using htxt
    | some bs =>
      obtain ⟨q, hq, hqlen⟩ := hply bs rfl
      simp only [meshFromModelCore, hq]
      rw [if_neg (show ¬4 ≤ q.length by omega)]
      exact htxt
  refine ⟨htxt, ?_⟩
  simp only [create_mesh_from_colmap_model]
  rw [hcore]

/-- A concrete binary PLY file declaring one vertex and carrying one
float-triple-plus-colour record (the point (1, 1, 1)). -/
def onePointPly : List Nat :=
  asciiBytes ("ply\nformat binary_little_endian 1.0\nelement vertex 1\n" ++
    "property float x\nproperty float y\nproperty float z\n" ++
    "property uchar red\nproperty uchar green\nproperty uchar blue\n" ++
    "end_header\n") ++
  [0, 0, 128, 63, 0, 0, 128, 63, 0, 0, 128, 63, 255, 0, 0]

/-- A concrete text model whose three data lines decode to three points. -/
def threePointLines : List String :=
  ["# 3D point list", "1 1 0 0 255 0 0 0.5 1 1", "2 0 1 0 255 0 0 0.5 1 1",
   "3 0 0 1 255 0 0 0.5 1 1"]

set_option maxRecDepth 100000 in
/-- C3 witness: the insufficient-points theorem at a concrete input — a PLY
file decoding to 1 point and a text model decoding to 3 points. -/
theorem insufficient_points_always_fall_back_witness :
    meshFromTxtCore (some threePointLines) none (fun _ => none) =
      some (.error .insufficientPoints) ∧
    create_mesh_from_colmap_model (some onePointPly) (some threePointLines)
      none (fun _ => none) ⟨none⟩ =
      some (.box (create_fallback_mesh ⟨none⟩)) :=
  insufficient_points_always_fall_back (some onePointPly) threePointLines
    [(1, 0, 0), (0, 1, 0), (0, 0, 1)] (fun _ => none) ⟨none⟩
    (by
      intro bs hbs
      injection hbs with hbs
      subst hbs
      exact ⟨[(1, 1, 1)], by with_unfolding_all rfl, by decide⟩)
    (by with_unfolding_all rfl) (by decide)

/-- Every list of distinct naturals all below `n` has length at most `n`. -/
theorem nodup_bounded_length_le (l : List Nat) (n : Nat) (hnd : l.Nodup)
    (hlt : ∀ i ∈ l, i < n) : l.length ≤ n := by
  classical
  have h1 : l.toFinset.card = l.length := List.toFinset_card_of_nodup hnd
  have h2 : l.toFinset ⊆ Finset.range n := by
    intro x hx
    exact Finset.mem_range.2 (hlt x (List.mem_toFinset.1 hx))
  have h3 := Finset.card_le_card h2
  rw [h1, Finset.card_range] at h3
  exact h3

/-- The vertex_map dict sends an original index to a 1-based position within
hull.vertices: every produced value is between 1 and the vertex count. -/
theorem vertexMap_some_bounds (verts : List Nat) (idx v : Nat)
    (h : vertexMap verts idx = some v) : 1 ≤ v ∧ v ≤ verts.length := by
  simp only [vertexMap, Option.map_eq_some'] at h
  obtain ⟨p, hp, hv⟩ := h
  have hmem : p ∈ verts.enum := (List.mem_filter.1 (List.mem_of_getLast?_eq_some hp)).1
  have hlt : p.1 < verts.length := by
    have := List.mem_enum_iff_get?.1 hmem
    have h2 := List.get?_eq_some.1 this
    exact h2.1
  omega

/-- C6: for every point set of at least 4 points on which the hull oracle
succeeds, _create_convex_hull_obj emits at most as many vertices as input
points (given scipy's contract that hull.vertices are distinct indices into
the input), and every face line lists exactly 3 indices, each a valid
1-based index into the emitted vertex list. -/
theorem convex_hull_mesh_well_formed (pts : List Pt) (hd : HullData)
    (h4 : 4 ≤ pts.length) (hnd : hd.vertices.Nodup)
    (hlt : ∀ i ∈ hd.vertices, i < pts.length) :
    (create_convex_hull_obj pts hd).vertices.length ≤ pts.length ∧
    ∀ f ∈ (create_convex_hull_obj pts hd).faces,
      f.length = 3 ∧ ∀ ix ∈ f,
        1 ≤ ix ∧ ix ≤ (create_convex_hull_obj pts hd).vertices.length := by
  have hvlen : (create_convex_hull_obj pts hd).vertices.length =
      hd.vertices.length := by
    simp [create_convex_hull_obj]
  constructor
  · rw [hvlen]
    exact nodup_bounded_length_le hd.vertices pts.length hnd hlt
  · intro f hf
    simp only [create_convex_hull_obj, List.mem_filterMap] at hf
    obtain ⟨s, _, hs⟩ := hf
    by_cases h3 : (s.filterMap (vertexMap hd.vertices)).length = 3
    · rw [if_pos h3] at hs
      injection hs with hs
      subst hs
      refine ⟨h3, ?_⟩
      intro ix hix
      obtain ⟨idx, _, hidx⟩ := List.mem_filterMap.1 hix
      have := vertexMap_some_bounds hd.vertices idx ix hidx
      rw [hvlen]
      exact this
    · rw [if_neg h3] at hs
      exact absurd hs (by simp)

/-- C6 witness: the hull-mesh theorem at a concrete tetrahedron. -/
theorem convex_hull_mesh_well_formed_witness :
    (create_convex_hull_obj [(0, 0, 0), (2, 0, 0), (0, 2, 0), (0, 0, 2)]
      ⟨[0, 1, 2, 3], [[0, 1, 2], [0, 1, 3], [0, 2, 3], [1, 2, 3]]⟩).vertices.length ≤
      ([(0, 0, 0), (2, 0, 0), (0, 2, 0), (0, 0, 2)] : List Pt).length ∧
    ∀ f ∈ (create_convex_hull_obj [(0, 0, 0), (2, 0, 0), (0, 2, 0), (0, 0, 2)]
        ⟨[0, 1, 2, 3], [[0, 1, 2], [0, 1, 3], [0, 2, 3], [1, 2, 3]]⟩).faces,
      f.length = 3 ∧ ∀ ix ∈ f,
        1 ≤ ix ∧ ix ≤ (create_convex_hull_obj
          [(0, 0, 0), (2, 0, 0), (0, 2, 0), (0, 0, 2)]
          ⟨[0, 1, 2, 3], [[0, 1, 2], [0, 1, 3], [0, 2, 3], [1, 2, 3]]⟩).vertices.length :=
  convex_hull_mesh_well_formed [(0, 0, 0), (2, 0, 0), (0, 2, 0), (0, 0, 2)]
    ⟨[0, 1, 2, 3], [[0, 1, 2], [0, 1, 3], [0, 2, 3], [1, 2, 3]]⟩
    (by decide) (by decide) (by decide)

/-- In the mapped record of a dict assignment, finding the assigned key
yields the new entry exactly when the key was present. -/
theorem find_key_map_set (m : Record) (k : String) (v : JVal) :
    (m.map (fun p => if p.1 == k then (k, v) else p)).find?
      (fun p => p.1 == k) =
      if m.any (fun p => p.1 == k) then some (k, v) else none := by
  induction m with
  | nil => simp
  | cons p t ih =>
    simp only [List.map_cons, List.any_cons, List.find?]
    by_cases hp : (p.1 == k) = true
    · simp [hp]
    · have hp' : (p.1 == k) = false := by simpa using hp
      rw [if_neg (by simp [hp'])]
      simp only [hp', Bool.false_or]
      exact ih

/-- Appending a fresh entry to a record that lacks the key makes the key
findable with the new value. -/
theorem find_key_append_singleton (m : Record) (k : String) (v : JVal)
    (h : m.any (fun p => p.1 == k) = false) :
    (m ++ [(k, v)]).find? (fun p => p.1 == k) = some (k, v) := by
  induction m with
  | nil => simp
  | cons p t ih =>
    simp only [List.any_cons, Bool.or_eq_false_iff] at h
    simp only [List.cons_append, List.find?]
    simp [h.1, ih h.2]

/-- A dict assignment to key `k` leaves lookups of other keys over the
mapped record unchanged. -/
theorem find_key_map_set_ne (m : Record) (k k' : String) (v : JVal)
    (h : k' ≠ k) :
    (m.map (fun p => if p.1 == k then (k, v) else p)).find?
      (fun p => p.1 == k') = m.find? (fun p => p.1 == k') := by
  induction m with
  | nil => simp
  | cons p t ih =>
    simp only [List.map_cons, List.find?]
    by_cases hp : (p.1 == k) = true
    · have hpk : p.1 = k := by simpa using hp
      have hkk' : (k == k') = false := by
        rw [beq_eq_false_iff_ne]
        exact Ne.symm h
      simpa [hp, hpk, hkk', -List.find?_map] using ih
    · have hp' : (p.1 == k) = false := by simpa using hp
      by_cases hq : (p.1 == k') = true
      · simp [hp', hq]
      · have hq' : (p.1 == k') = false := by simpa using hq
        simpa [hp', hq', -List.find?_map] using ih

/-- Appending an entry for key `k` leaves lookups of other keys
unchanged. -/
theorem find_key_append_ne (m : Record) (k k' : String) (v : JVal)
    (h : k' ≠ k) :
    (m ++ [(k, v)]).find? (fun p => p.1 == k') =
      m.find? (fun p => p.1 == k') := by
  have hkk' : (k == k') = false := by
    rw [beq_eq_false_iff_ne]
    exact Ne.symm h
  induction m with
  | nil => simp [List.find?, hkk']
  | cons p t ih =>
    simp only [List.cons_append, List.find?]
    by_cases hq : (p.1 == k') = true
    · simp [hq]
    · have hq' : (p.1 == k') = false := by simpa using hq
      simp [hq', ih]

/-- Looking up the key just assigned by d[k] = v yields v. -/
theorem lookupRec_dictSet_self (m : Record) (k : String) (v : JVal) :
    lookupRec (dictSet m k v) k = some v := by
  unfold lookupRec dictSet
  by_cases h : m.any (fun p => p.1 == k) = true
  · rw [if_pos h, find_key_map_set, if_pos h]
    rfl
  · rw [if_neg h,
      find_key_append_singleton m k v (by exact Bool.eq_false_iff.mpr h)]
    rfl

/-- Assigning key `k` does not change the lookup of a different key. -/
theorem lookupRec_dictSet_ne (m : Record) (k k' : String) (v : JVal)
    (h : k' ≠ k) :
    lookupRec (dictSet m k v) k' = lookupRec m k' := by
  unfold lookupRec dictSet
  by_cases hc : m.any (fun p => p.1 == k) = true
  · rw [if_pos hc, find_key_map_set_ne m k k' v h]
  · rw [if_neg hc, find_key_append_ne m k k' v h]

/-- A progress-carrying status update persists exactly that progress value,
whatever the record held before. -/
theorem lookup_progress_after_stage_update (cur : Record)
    (status now stage : String) (p : Int) :
    lookupRec (dictUpdate cur (statusArg status now
      [("stage", .str stage), ("progress", .int p)])) "progress" =
      some (.int p) := by
  show lookupRec (dictSet (dictSet (dictSet (dictSet cur "status"
    (.str status)) "last_updated" (.str now)) "stage" (.str stage))
    "progress" (.int p)) "progress" = some (.int p)
  rw [lookupRec_dictSet_self]

/-- The completed-status update carries no progress key, so the previously
persisted progress value survives the merge. -/
theorem lookup_progress_after_completed_update (cur : Record)
    (status now : String) (models stats : JVal) (pc : Int) :
    lookupRec (dictUpdate cur (statusArg status now
      [("models", models), ("stats", stats), ("photo_count", .int pc)]))
      "progress" = lookupRec cur "progress" := by
  show lookupRec (dictSet (dictSet (dictSet (dictSet (dictSet cur "status"
    (.str status)) "last_updated" (.str now)) "models" models) "stats" stats)
    "photo_count" (.int pc)) "progress" = lookupRec cur "progress"
  rw [lookupRec_dictSet_ne _ _ _ _ (by decide),
    lookupRec_dictSet_ne _ _ _ _ (by decide),
    lookupRec_dictSet_ne _ _ _ _ (by decide),
    lookupRec_dictSet_ne _ _ _ _ (by decide),
    lookupRec_dictSet_ne _ _ _ _ (by decide)]

/-- The failed-status update carries no progress key either. -/
theorem lookup_progress_after_error_update (cur : Record)
    (status now err : String) :
    lookupRec (dictUpdate cur (statusArg status now [("error", .str err)]))
      "progress" = lookupRec cur "progress" := by
  show lookupRec (dictSet (dictSet (dictSet cur "status" (.str status))
    "last_updated" (.str now)) "error" (.str err)) "progress" =
    lookupRec cur "progress"
  rw [lookupRec_dictSet_ne _ _ _ _ (by decide),
    lookupRec_dictSet_ne _ _ _ _ (by decide),
    lookupRec_dictSet_ne _ _ _ _ (by decide)]

/-- C7: across the successive status updates of one
process_photogrammetry run — whatever the prior directory state, the
outcome, and the observed timestamps — the persisted progress values are
monotonically non-decreasing: the run persists 0, then 10, and the terminal
update carries no progress key, leaving 10 in place. -/
theorem progress_never_decreases (d : DirState) (o : TaskOutcome)
    (nows : List String) :
    List.Chain' (· ≤ ·) (progress_trace d o nows) := by
  cases d with
  | absent =>
    cases o <;>
      simp [progress_trace, task_updates, runStatusStates, update_scan_status,
        progressOf]
  | present st md =>
    cases o with
    | success models stats pc =>
      simp only [progress_trace, task_updates, runStatusStates,
        update_scan_status, List.filterMap, progressOf, Option.getD_some,
        lookup_progress_after_stage_update,
        lookup_progress_after_completed_update]
      norm_num [List.chain'_cons]
    | procFailed err =>
      simp only [progress_trace, task_updates, runStatusStates,
        update_scan_status, List.filterMap, progressOf, Option.getD_some,
        lookup_progress_after_stage_update,
        lookup_progress_after_error_update]
      norm_num [List.chain'_cons]
    | taskError err =>
      simp only [progress_trace, task_updates, runStatusStates,
        update_scan_status, List.filterMap, progressOf, Option.getD_some,
        lookup_progress_after_stage_update,
        lookup_progress_after_error_update]
      norm_num [List.chain'_cons]

/-- The binary body loop consumes nothing from an empty byte list. -/
theorem readBinaryVertices_nil (n : Nat) : readBinaryVertices n [] = [] := by
  induction n with
  | zero => rfl
  | succ n ih => simpa [readBinaryVertices] using ih

/-- When the declared vertex count exceeds the vertices representable by the
body bytes, the binary body loop stops at the bytes: it yields exactly
(bodyLength + 3) / 15 points, silently and without error. -/
theorem readBinaryVertices_length_exceed (n : Nat) (bs : List Nat)
    (h : (bs.length + 3) / 15 < n) :
    (readBinaryVertices n bs).length = (bs.length + 3) / 15 := by
  induction n generalizing bs with
  | zero => omega
  | succ n ih =>
    by_cases h12 : 12 ≤ bs.length
    · simp only [readBinaryVertices]
      rw [if_pos h12]
      simp only [List.length_cons]
      have hlen : (bs.drop 15).length = bs.length - 15 := by simp
      have ih2 := ih (bs.drop 15) (by rw [hlen]; omega)
      rw [ih2, hlen]
      omega
    · simp only [readBinaryVertices]
      rw [if_neg h12]
      have hd : bs.drop 12 = [] := by
        have : (bs.drop 12).length = 0 := by simp; omega
        exact List.eq_nil_of_length_eq_zero this
      rw [hd, readBinaryVertices_nil]
      simp only [List.length_nil]
      omega

/-- A binary point file whose element-vertex count is not numeric. -/
def badVertexCountPly : List Nat :=
  asciiBytes
    "ply\nformat binary_little_endian 1.0\nelement vertex abc\nend_header\n"

/-- A binary point file declaring 100 vertices over an empty body. -/
def overdeclaredPly : List Nat :=
  asciiBytes ("ply\nformat binary_little_endian 1.0\nelement vertex 100\n" ++
    "property float x\nproperty float y\nproperty float z\nend_header\n")

/-- C5 (amended): a malformed header (non-numeric vertex count) does make
the decode fail; but a stated vertex count exceeding the vertices
representable by the available body bytes does NOT make it fail — the binary
decode succeeds, returning exactly (bodyBytes + 3) / 15 points, the ones the
body can supply. -/
theorem malformed_header_fails_but_overdeclared_count_succeeds :
    read_points_from_ply badVertexCountPly = some (.error ()) ∧
    ∀ (bs : List Nat) (hdr : PlyHeader) (rest : List (List Nat)),
      parseHeaderLines (byteLines bs) ⟨false, 0, []⟩ = some (.ok (hdr, rest)) →
      hdr.formatBinary = true →
      (rest.flatten.length + 3) / 15 < hdr.vertexCount.toNat →
      read_points_from_ply bs =
        some (.ok (readBinaryVertices hdr.vertexCount.toNat rest.flatten)) ∧
      (readBinaryVertices hdr.vertexCount.toNat rest.flatten).length =
        (rest.flatten.length + 3) / 15 := by
  constructor
  · rfl
  · intro bs hdr rest hhdr hbin hcount
    constructor
    · simp only [read_points_from_ply, hhdr, hbin, if_true]
    · exact readBinaryVertices_length_exceed hdr.vertexCount.toNat rest.flatten
        hcount

/-- C5 witness: the amended theorem applied to the concrete file declaring
100 vertices over an empty body: decode succeeds with 0 points. -/
theorem malformed_header_fails_but_overdeclared_count_succeeds_witness :
    read_points_from_ply overdeclaredPly =
      some (.ok (readBinaryVertices (Int.toNat 100)
        (([] : List (List Nat)).flatten))) ∧
    (readBinaryVertices (Int.toNat 100)
      (([] : List (List Nat)).flatten)).length =
      ((([] : List (List Nat)).flatten).length + 3) / 15 :=
  malformed_header_fails_but_overdeclared_count_succeeds.2 overdeclaredPly
    ⟨true, 100, ["x", "y", "z"]⟩ [] (by rfl) rfl (by decide)

/-- C5 counterexample: at the concrete binary file whose header declares
`element vertex 100` over an empty body — a stated vertex count far beyond
the available body bytes — the decode does not fail at all: it returns
success with an empty point list. -/
theorem overdeclared_vertex_count_does_not_fail :
    read_points_from_ply overdeclaredPly = some (.ok []) := by
  rfl

/-- Byte-splitting into lines loses no bytes: flattening the line list
restores the stream. -/
theorem byteLinesAux_flatten (bs : List Nat) :
    ∀ acc : List Nat, (byteLinesAux bs acc).flatten = acc.reverse ++ bs := by
  induction bs with
  | nil =>
    intro acc
    by_cases h : acc = []
    · simp [byteLinesAux, h]
    · simp [byteLinesAux, h]
  | cons b t ih =>
    intro acc
    by_cases h : b = 10
    · simp [byteLinesAux, h, ih]
    · simp [byteLinesAux, h, ih ((b :: acc))]

/-- Little-endian encoding of a 32-bit word, as struct.pack('<I') would. -/
def encWord (w : Nat) : List Nat :=
  [w % 256, w / 256 % 256, w / 65536 % 256, w / 16777216 % 256]

/-- One binary vertex record in COLMAP's PLY layout: the three coordinate
floats (by bit pattern) followed by the three colour bytes. -/
def encRecord (t rgb : Nat × Nat × Nat) : List Nat :=
  encWord t.1 ++ encWord t.2.1 ++ encWord t.2.2 ++ [rgb.1, rgb.2.1, rgb.2.2]

/-- All three components are 32-bit words. -/
def wordTriple (t : Nat × Nat × Nat) : Prop :=
  t.1 < 2 ^ 32 ∧ t.2.1 < 2 ^ 32 ∧ t.2.2 < 2 ^ 32

/-- The float values of a bit-pattern triple. -/
def f32Triple (t : Nat × Nat × Nat) : Pt :=
  (f32Val t.1, f32Val t.2.1, f32Val t.2.2)

/-- Reassembling the four little-endian bytes of a 32-bit word restores the
word. -/
theorem leWord_encWord (w : Nat) (hw : w < 2 ^ 32) :
    leWord (w % 256) (w / 256 % 256) (w / 65536 % 256) (w / 16777216 % 256) =
      w := by
  unfold leWord
  omega

/-- The binary body loop on one full 15-byte record: it unpacks the three
floats, skips the three colour bytes, and continues with the rest. -/
theorem readBinaryVertices_record (n : Nat) (t rgb : Nat × Nat × Nat)
    (rest : List Nat) (ht : wordTriple t) :
    readBinaryVertices (n + 1) (encRecord t rgb ++ rest) =
      f32Triple t :: readBinaryVertices n rest := by
  obtain ⟨h1, h2, h3⟩ := ht
  have hlen : 12 ≤ (encRecord t rgb ++ rest).length := by
    simp [encRecord, encWord]
  simp only [readBinaryVertices]
  rw [if_pos hlen]
  have hdrop : (encRecord t rgb ++ rest).drop 15 = rest := by
    simp [encRecord, encWord]
  have hunpack : unpackTriple (encRecord t rgb ++ rest) = f32Triple t := by
    simp only [unpackTriple, encRecord, encWord, f32Triple, List.cons_append,
      List.nil_append, List.getD_cons_zero, List.getD_cons_succ]
    rw [leWord_encWord t.1 h1, leWord_encWord t.2.1 h2, leWord_encWord t.2.2 h3]
  rw [hdrop, hunpack]

/-- The COLMAP-layout binary PLY header declaring 5 vertices with x/y/z
float properties and red/green/blue colour channels. -/
def plyHeaderRGB5 : List Nat :=
  asciiBytes ("ply\nformat binary_little_endian 1.0\nelement vertex 5\n" ++
    "property float x\nproperty float y\nproperty float z\n" ++
    "property uchar red\nproperty uchar green\nproperty uchar blue\n" ++
    "end_header\n")

set_option maxRecDepth 100000 in
/-- C4 (amended): decoding a binary point file whose header declares
`element vertex 5` and whose body consists of 5 records — a well-formed
little-endian 32-bit float triple followed by the 3 one-byte colour values
the reader unconditionally skips — yields exactly 5 points whose coordinates
are the written float values (the write-then-decode round trip is the
identity on the 5 triples). -/
theorem binary_ply_round_trip_with_colour_bytes
    (t1 t2 t3 t4 t5 p1 p2 p3 p4 p5 : Nat × Nat × Nat)
    (h1 : wordTriple t1) (h2 : wordTriple t2) (h3 : wordTriple t3)
    (h4 : wordTriple t4) (h5 : wordTriple t5) :
    read_points_from_ply (plyHeaderRGB5 ++ (encRecord t1 p1 ++
      (encRecord t2 p2 ++ (encRecord t3 p3 ++ (encRecord t4 p4 ++
        encRecord t5 p5))))) =
      some (.ok [f32Triple t1, f32Triple t2, f32Triple t3, f32Triple t4,
        f32Triple t5]) := by
  have hhdr : ∀ B : List Nat,
      parseHeaderLines (byteLines (plyHeaderRGB5 ++ B)) ⟨false, 0, []⟩ =
        some (.ok (⟨true, 5, ["x", "y", "z", "red", "green", "blue"]⟩,
          byteLinesAux B [])) := fun B => rfl
  simp only [read_points_from_ply, hhdr, if_true]
  have hflat : (byteLinesAux (encRecord t1 p1 ++ (encRecord t2 p2 ++
      (encRecord t3 p3 ++ (encRecord t4 p4 ++ encRecord t5 p5)))) []).flatten =
      encRecord t1 p1 ++ (encRecord t2 p2 ++ (encRecord t3 p3 ++
        (encRecord t4 p4 ++ encRecord t5 p5))) := by
    rw [byteLinesAux_flatten]
    rfl
  rw [hflat]
  rw [show Int.toNat 5 = 5 from rfl]
  rw [readBinaryVertices_record 4 t1 p1 _ h1,
    readBinaryVertices_record 3 t2 p2 _ h2,
    readBinaryVertices_record 2 t3 p3 _ h3,
    readBinaryVertices_record 1 t4 p4 _ h4,
    show encRecord t5 p5 = encRecord t5 p5 ++ [] from (List.append_nil _).symm,
    readBinaryVertices_record 0 t5 p5 [] h5,
    readBinaryVertices_nil]

/-- C4 witness: the round-trip theorem at the concrete float triples
(1, 2, 3) ... (13, 14, 15) with colour bytes (255, 0, 0). -/
theorem binary_ply_round_trip_with_colour_bytes_witness :
    wordTriple (1065353216, 1073741824, 1077936128) ∧
    read_points_from_ply (plyHeaderRGB5 ++
      (encRecord (1065353216, 1073741824, 1077936128) (255, 0, 0) ++
      (encRecord (1082130432, 1084227584, 1086324736) (255, 0, 0) ++
      (encRecord (1088421888, 1090519040, 1091567616) (255, 0, 0) ++
      (encRecord (1092616192, 1093664768, 1094713344) (255, 0, 0) ++
       encRecord (1095761920, 1096810496, 1097859072) (255, 0, 0)))))) =
      some (.ok [f32Triple (1065353216, 1073741824, 1077936128),
        f32Triple (1082130432, 1084227584, 1086324736),
        f32Triple (1088421888, 1090519040, 1091567616),
        f32Triple (1092616192, 1093664768, 1094713344),
        f32Triple (1095761920, 1096810496, 1097859072)]) :=
  ⟨⟨by decide, by decide, by decide⟩,
    binary_ply_round_trip_with_colour_bytes
      (1065353216, 1073741824, 1077936128) (1082130432, 1084227584, 1086324736)
      (1088421888, 1090519040, 1091567616) (1092616192, 1093664768, 1094713344)
      (1095761920, 1096810496, 1097859072) (255, 0, 0) (255, 0, 0) (255, 0, 0)
      (255, 0, 0) (255, 0, 0) ⟨by decide, by decide, by decide⟩
      ⟨by decide, by decide, by decide⟩ ⟨by decide, by decide, by decide⟩
      ⟨by decide, by decide, by decide⟩ ⟨by decide, by decide, by decide⟩⟩

/-- A binary point file declaring 5 vertices whose body is exactly 5
well-formed little-endian float triples (60 bytes, the float 1.0 fifteen
times) with no trailing per-vertex bytes. -/
def fiveTripleOnlyPly : List Nat :=
  asciiBytes ("ply\nformat binary_little_endian 1.0\nelement vertex 5\n" ++
    "property float x\nproperty float y\nproperty float z\nend_header\n") ++
  [0, 0, 128, 63, 0, 0, 128, 63, 0, 0, 128, 63,
   0, 0, 128, 63, 0, 0, 128, 63, 0, 0, 128, 63,
   0, 0, 128, 63, 0, 0, 128, 63, 0, 0, 128, 63,
   0, 0, 128, 63, 0, 0, 128, 63, 0, 0, 128, 63,
   0, 0, 128, 63, 0, 0, 128, 63, 0, 0, 128, 63]

set_option maxRecDepth 100000 in
/-- C4 counterexample: at the concrete file whose header declares
`element vertex 5` and whose body consists of exactly 5 well-formed
little-endian 32-bit float triples (and nothing else), the decode yields 4
points, not 5 — the reader's unconditional 3-byte colour skip misaligns
every record after the first, so the round trip is not the identity. -/
theorem five_triple_only_body_decodes_to_four_points :
    (read_points_from_ply fiveTripleOnlyPly).map (Except.map List.length) =
      some (.ok 4) := by
  with_unfolding_all rfl

/-- C2 witness: the dimension-box theorem at the concrete dimensions
50 x 50 x 100. -/
theorem fallback_mesh_is_dimension_box_witness :
    (create_fallback_mesh ⟨some ⟨some 50, some 50, some 100⟩⟩).vertices.length = 8 ∧
    (create_fallback_mesh ⟨some ⟨some 50, some 50, some 100⟩⟩).faces.length = 6 ∧
    (∀ f ∈ (create_fallback_mesh ⟨some ⟨some 50, some 50, some 100⟩⟩).faces,
      f.length = 4) ∧
    (∀ v ∈ (create_fallback_mesh ⟨some ⟨some 50, some 50, some 100⟩⟩).vertices,
      -((50 : ℚ) / 200) ≤ v.1 ∧ v.1 ≤ (50 : ℚ) / 200 ∧
      -((100 : ℚ) / 200) ≤ v.2.1 ∧ v.2.1 ≤ (100 : ℚ) / 200 ∧
      -((50 : ℚ) / 200) ≤ v.2.2 ∧ v.2.2 ≤ (50 : ℚ) / 200) ∧
    ((50 : ℚ) / 200, (100 : ℚ) / 200, (50 : ℚ) / 200) ∈
      (create_fallback_mesh ⟨some ⟨some 50, some 50, some 100⟩⟩).vertices ∧
    (-((50 : ℚ) / 200), -((100 : ℚ) / 200), -((50 : ℚ) / 200)) ∈
      (create_fallback_mesh ⟨some ⟨some 50, some 50, some 100⟩⟩).vertices :=
  fallback_mesh_is_dimension_box 50 50 100 (by norm_num) (by norm_num)
    (by norm_num)

end Circular3D
